import Mathlib

/-!
Verification of the homecare scheduler core (single source file streamlit_app.py):
the dynamic custom-field registry with anchored placement and renormalization,
the merged fixed/custom field layout, and the visit scheduling handlers.
Order keys are modelled as rationals; tables are modelled as lists of rows in
rowid (insertion) order, with SQLite ORDER BY modelled as a stable sort.
-/

namespace Homecare

/-- Fixed fields table FIXED_FIELDS of the source: per entity, the list of
(key, label) pairs in declared order. Entities outside the three known ones
have no fixed fields (in the source, other keys are never used). -/
def FIXED_FIELDS : String → List (String × String)
  | "patients" =>
    [("id", "Patient ID"), ("name", "Full name"), ("dob", "Date of birth"),
     ("gender", "Gender"), ("phone", "Phone"), ("email", "Email"),
     ("address", "Address"), ("emergency_contact", "Emergency contact"),
     ("insurance_provider", "Insurance provider"), ("insurance_number", "Insurance number"),
     ("allergies", "Allergies"), ("medications", "Current medications"),
     ("diagnosis", "Primary diagnosis"), ("equipment_required", "Equipment required"),
     ("mobility", "Mobility"), ("care_plan", "Care plan summary"),
     ("notes", "Notes / social history")]
  | "staff" =>
    [("id", "Staff ID"), ("name", "Full name"), ("role", "Role"),
     ("license_number", "License number"), ("specialties", "Specialties"),
     ("phone", "Phone"), ("email", "Email"), ("availability", "Availability"),
     ("notes", "Notes")]
  | "schedule" =>
    [("visit_id", "Visit ID"), ("patient_id", "Patient ID"), ("staff_id", "Staff ID"),
     ("date", "Date"), ("start_time", "Start"), ("end_time", "End"),
     ("visit_type", "Visit type"), ("duration_minutes", "Duration (min)"),
     ("priority", "Priority"), ("notes", "Notes")]
  | _ => []

/-- A row of the extra_fields table (id is the AUTOINCREMENT primary key). -/
structure ExtraField where
  id : Nat
  entity : String
  field_name : String
  field_type : String
  field_order : ℚ
  options : String
deriving DecidableEq, Repr

/-- A row of the extra_values table (its own rowid is left implicit: the list
position plays that role). -/
structure ExtraValue where
  entity : String
  record_id : String
  field_id : Nat
  value : String
deriving DecidableEq, Repr

/-- A row of the schedule table (recurring_rule and created_at are omitted:
always NULL resp. a wall-clock timestamp no claim touches). -/
structure Visit where
  visit_id : String
  patient_id : String
  staff_id : String
  vdate : String
  start_time : String
  end_time : String
  visit_type : String
  duration_minutes : Int
  priority : String
  notes : String
  created_by : String
deriving DecidableEq, Repr

/-- The persistent state the claims touch: extra_fields, extra_values and
schedule tables, plus the AUTOINCREMENT counter of extra_fields. -/
structure DB where
  extra_fields : List ExtraField
  extra_values : List ExtraValue
  schedule : List Visit
  next_field_id : Nat
deriving DecidableEq, Repr

/-- The empty database (fresh init_db_and_migrate state; AUTOINCREMENT starts at 1). -/
def emptyDB : DB := { extra_fields := [], extra_values := [], schedule := [], next_field_id := 1 }

/-! ### Stable sorting by a rational key (models both python sorted and SQLite ORDER BY) -/

/-- Insert an element into a list sorted by key, before any element of
strictly larger key (so that, combined with sortByKey, equal keys keep
their original relative order, as python sorted guarantees). -/
def insertByKey {α : Type} (key : α → ℚ) (a : α) : List α → List α
  | [] => [a]
  | b :: bs => if key b < key a then b :: insertByKey key a bs else a :: b :: bs

/-- Stable sort by a rational key. -/
def sortByKey {α : Type} (key : α → ℚ) : List α → List α
  | [] => []
  | x :: xs => insertByKey key x (sortByKey key xs)

/-! ### Extra field registry operations (from the source) -/

/-- get_extra_fields: SELECT * FROM extra_fields WHERE entity=? ORDER BY field_order ASC. -/
def get_extra_fields (entity : String) (db : DB) : List ExtraField :=
  sortByKey (fun f => f.field_order) (db.extra_fields.filter (fun f => f.entity = entity))

/-- The STEP constant of add_extra_field (variable step = 1000). -/
def STEP : ℚ := 1000

/-- The merged token list built inside add_extra_field: fixed fields at keys
(index+1)*1000, existing custom fields at their stored keys, sorted by key. -/
def buildTokens (entity : String) (db : DB) : List (String × ℚ) :=
  sortByKey (fun t => t.2)
    (((FIXED_FIELDS entity).enum.map (fun p => ("fixed:" ++ p.2.1, (((p.1 + 1) * 1000 : ℕ) : ℚ))))
      ++ (get_extra_fields entity db).map (fun f => ("custom:" ++ toString f.id, f.field_order)))

/-- The order-key computation of add_extra_field: resolve the anchor among the
tokens; with no (or unresolved) anchor append after the last token; otherwise
take the midpoint with the neighbor on the requested side, or anchor ∓ STEP
when no such neighbor exists. -/
def computeNewOrder (tokens : List (String × ℚ)) (anchor_field : Option String)
    (position : String) : ℚ :=
  let anchor_order : Option ℚ :=
    anchor_field.bind (fun a => (tokens.find? (fun t => t.1 = a)).map (fun t => t.2))
  match anchor_order with
  | none =>
    match tokens.getLast? with
    | some t => t.2 + STEP
    | none => STEP
  | some A =>
    if position = "above" then
      let prev_orders := (tokens.filter (fun t => t.2 < A)).map (fun t => t.2)
      let prev := prev_orders.getLast?.getD (A - STEP)
      (prev + A) / 2
    else
      let next_orders := (tokens.filter (fun t => A < t.2)).map (fun t => t.2)
      let nxt := next_orders.head?.getD (A + STEP)
      (A + nxt) / 2

/-- renormalize_field_orders: rewrite the order key of every extra field of the
entity to its position (1-based) in the current field_order-sorted sequence.
The source iterates over the sorted rows and updates each row by its id;
extra field ids are unique (AUTOINCREMENT), so the row with a given id gets
1 + its index in the sorted id sequence. -/
def renormalize_field_orders (entity : String) (db : DB) : DB :=
  let sortedIds := (get_extra_fields entity db).map (fun f => f.id)
  { db with extra_fields := db.extra_fields.map (fun f =>
      if f.entity = entity then { f with field_order := ((sortedIds.indexOf f.id + 1 : ℕ) : ℚ) }
      else f) }

/-- add_extra_field: build the merged token list, compute the new order key,
INSERT the new row (AUTOINCREMENT id), then renormalize the entity. -/
def add_extra_field (entity field_name field_type : String) (anchor_field : Option String)
    (position : String) (options_text : String) (db : DB) : DB :=
  let tokens := buildTokens entity db
  let new_order := computeNewOrder tokens anchor_field position
  let db1 : DB :=
    { db with
        extra_fields := db.extra_fields ++
          [{ id := db.next_field_id, entity := entity, field_name := field_name,
             field_type := field_type, field_order := new_order, options := options_text }],
        next_field_id := db.next_field_id + 1 }
  renormalize_field_orders entity db1

/-- remove_extra_field: DELETE FROM extra_values WHERE field_id=?;
DELETE FROM extra_fields WHERE id=?. -/
def remove_extra_field (field_id : Nat) (db : DB) : DB :=
  { db with
      extra_values := db.extra_values.filter (fun v => v.field_id ≠ field_id),
      extra_fields := db.extra_fields.filter (fun f => f.id ≠ field_id) }

/-- Update the first extra_values row matching (entity, record_id, field_id)
(the source SELECTs the row, takes fetchone, and UPDATEs by its rowid). -/
def updateFirstValue (entity record_id : String) (field_id : Nat) (value : String) :
    List ExtraValue → List ExtraValue
  | [] => []
  | v :: vs =>
    if v.entity = entity ∧ v.record_id = record_id ∧ v.field_id = field_id then
      { v with value := value } :: vs
    else v :: updateFirstValue entity record_id field_id value vs

/-- set_extra_value: UPDATE the existing row if one matches, else INSERT. -/
def set_extra_value (entity record_id : String) (field_id : Nat) (value : String)
    (db : DB) : DB :=
  if (db.extra_values.find? (fun v =>
        v.entity = entity ∧ v.record_id = record_id ∧ v.field_id = field_id)).isSome then
    { db with extra_values := updateFirstValue entity record_id field_id value db.extra_values }
  else
    { db with extra_values := db.extra_values ++
        [{ entity := entity, record_id := record_id, field_id := field_id, value := value }] }

/-- get_extra_value: SELECT value ... fetchone, None when absent. -/
def get_extra_value (entity record_id : String) (field_id : Nat) (db : DB) : Option String :=
  (db.extra_values.find? (fun v =>
    v.entity = entity ∧ v.record_id = record_id ∧ v.field_id = field_id)).map (fun v => v.value)

/-! ### Field layout resolver (build_render_list) -/

/-- An item of the merged render list built by build_render_list. -/
structure RenderItem where
  isFixed : Bool
  key : String
  label : String
  order : ℚ
deriving DecidableEq, Repr

/-- build_render_list: fixed fields at orders (index+1)*1000, custom fields
from get_extra_fields at their stored orders, sorted by order. -/
def build_render_list (entity : String) (db : DB) : List RenderItem :=
  sortByKey (fun it => it.order)
    (((FIXED_FIELDS entity).enum.map (fun p =>
        { isFixed := true, key := p.2.1, label := p.2.2,
          order := (((p.1 + 1) * 1000 : ℕ) : ℚ) : RenderItem }))
      ++ (get_extra_fields entity db).map (fun f =>
        { isFixed := false, key := "custom_" ++ toString f.id, label := f.field_name,
          order := f.field_order : RenderItem }))

/-! ### Scheduler (create visit form submit handler, delete visit handler) -/

/-- Zero-pad a number as the python format string with width 5 does
(wider numbers keep all their digits). -/
def padVisitNum (n : Nat) : String :=
  let s := toString n
  String.mk (List.replicate (5 - s.length) '0') ++ s

/-- make_visit_id: V followed by the zero-padded schedule row count plus one. -/
def make_visit_id (db : DB) : String := "V" ++ padVisitNum (db.schedule.length + 1)

/-- Two-digit zero padding of strftime. -/
def pad2 (n : Nat) : String := if n < 10 then "0" ++ toString n else toString n

/-- strftime of a time of day given as minutes since midnight. -/
def fmtTime (m : Nat) : String := pad2 (m / 60) ++ ":" ++ pad2 (m % 60)

/-- The visit-creation form input: patient, staff, date (iso string), start and
end times as minutes since midnight (what st.time_input yields, < 1440),
visit type, priority, notes. Empty patient_id or staff_id models the python
falsy values (nothing selected). -/
structure VisitInput where
  patient_id : String
  staff_id : String
  vdate : String
  start_min : Nat
  end_min : Nat
  visit_type : String
  priority : String
  notes : String
deriving DecidableEq, Repr

/-- The duration computation of the handler:
int(((combine(today,end) - combine(today,start)).seconds) / 60).
timedelta normalizes so that .seconds is the total difference mod 86400
(python % = emod); the result is a whole number of minutes. -/
def duration_minutes (start_min end_min : Nat) : Int :=
  (((end_min : Int) - (start_min : Int)) * 60 % 86400) / 60

/-- INSERT OR REPLACE into schedule keyed on the visit_id primary key: any row
with the same key is removed and the new row is appended. -/
def insertOrReplaceVisit (v : Visit) (sched : List Visit) : List Visit :=
  (sched.filter (fun r => r.visit_id ≠ v.visit_id)) ++ [v]

/-- The schedule row the submit handler inserts. -/
def mkVisitRow (inp : VisitInput) (user : String) (db : DB) : Visit :=
  { visit_id := make_visit_id db, patient_id := inp.patient_id, staff_id := inp.staff_id,
    vdate := inp.vdate, start_time := fmtTime inp.start_min, end_time := fmtTime inp.end_min,
    visit_type := inp.visit_type, duration_minutes := duration_minutes inp.start_min inp.end_min,
    priority := inp.priority, notes := inp.notes, created_by := user }

/-- The create_visit_form submit handler: reject when no patient or staff is
selected, otherwise generate the visit id from the current row count,
INSERT OR REPLACE the row, and store the submitted custom field values.
On success it returns the new state and the id shown to the user. -/
def create_visit (inp : VisitInput) (custom_vals : List (Nat × String)) (user : String)
    (db : DB) : Except String (DB × String) :=
  if inp.patient_id = "" ∨ inp.staff_id = "" then
    .error "SelectPatientStaff"
  else
    let vid := make_visit_id db
    let row := mkVisitRow inp user db
    let db1 : DB := { db with schedule := insertOrReplaceVisit row db.schedule }
    let db2 := custom_vals.foldl (fun d p => set_extra_value "schedule" vid p.1 p.2 d) db1
    .ok (db2, vid)

/-- The can_edit gate of the visit manager: admin role or original creator. -/
def canEditVisit (row : Visit) (user role : String) : Bool :=
  role = "admin" || row.created_by = user

/-- State change of the delete-visit button: DELETE FROM schedule WHERE
visit_id=?; DELETE FROM extra_values WHERE entity is schedule AND record_id=?. -/
def performDeleteVisit (visit_id : String) (db : DB) : DB :=
  { db with
      schedule := db.schedule.filter (fun r => r.visit_id ≠ visit_id),
      extra_values := db.extra_values.filter (fun v =>
        ¬(v.entity = "schedule" ∧ v.record_id = visit_id)) }

/-- delete_visit: the visit manager selects an existing row (find by id);
deletion runs only behind the can_edit gate, otherwise the user is told only
admin or creator can delete and the state is left untouched. -/
def delete_visit (visit_id user role : String) (db : DB) : Except String DB :=
  match db.schedule.find? (fun r => r.visit_id = visit_id) with
  | none => .error "NotFound"
  | some row =>
    if canEditVisit row user role then .ok (performDeleteVisit visit_id db)
    else .error "NotOwner"

/-- Half-open interval overlap on times given as minutes since midnight, as the
specification defines it (the handler in this source performs no such check). -/
def overlapsHalfOpen (s1 e1 s2 e2 : Nat) : Bool :=
  s1 < e2 && s2 < e1

/-! ### Spec-side description of the order key computation (for the refinement
claim C4): stated with maxima and minima over the key multiset instead of
neighbors in the sorted list. -/

/-- Maximum of a list of rationals, none when empty. -/
def maxQ : List ℚ → Option ℚ
  | [] => none
  | x :: xs => some ((maxQ xs).elim x (fun m => max x m))

/-- Minimum of a list of rationals, none when empty. -/
def minQ : List ℚ → Option ℚ
  | [] => none
  | x :: xs => some ((minQ xs).elim x (fun m => min x m))

/-- The order key computation as the specification words it: no (or
unresolved) anchor gives max of the existing keys plus STEP; an anchor with
key A and position above gives the midpoint of A and the nearest strictly
lower key, or A minus STEP when none is lower; position below the midpoint of
A and the nearest strictly higher key, or A plus STEP when none is higher. -/
def specNewOrder (tokens : List (String × ℚ)) (anchor_field : Option String)
    (position : String) : ℚ :=
  let keys := tokens.map (fun t => t.2)
  let anchor_order : Option ℚ :=
    anchor_field.bind (fun a => (tokens.find? (fun t => t.1 = a)).map (fun t => t.2))
  match anchor_order with
  | none => (maxQ keys).getD 0 + STEP
  | some A =>
    if position = "above" then
      ((maxQ (keys.filter (fun k => k < A))).getD (A - STEP) + A) / 2
    else
      (A + (minQ (keys.filter (fun k => A < k))).getD (A + STEP)) / 2

/-! ### Concrete states used by the counterexamples and witnesses -/

/-- An existing visit for staff S1 on 2024-01-10, 09:00 to 10:00, created by
the doctor account. -/
def visitS1 : Visit :=
  { visit_id := "V00001", patient_id := "P1", staff_id := "S1", vdate := "2024-01-10",
    start_time := fmtTime 540, end_time := fmtTime 600, visit_type := "Home visit",
    duration_minutes := 60, priority := "Normal", notes := "", created_by := "doctor" }

/-- Database holding exactly that one visit. -/
def dbOneVisit : DB := { emptyDB with schedule := [visitS1] }

/-- Proposed visit for the same staff member and date, 09:30 to 10:15. -/
def inpOverlap : VisitInput :=
  { patient_id := "P1", staff_id := "S1", vdate := "2024-01-10", start_min := 570,
    end_min := 615, visit_type := "Home visit", priority := "Normal", notes := "" }

/-- Proposed visit whose end (09:00) is before its start (10:00). -/
def inpBackwards : VisitInput :=
  { patient_id := "P1", staff_id := "S1", vdate := "2024-01-10", start_min := 600,
    end_min := 540, visit_type := "Home visit", priority := "Normal", notes := "" }

/-- Database whose schedule holds visits V00001 and V00003: the state reached
by creating three visits and deleting V00002. -/
def dbGap : DB :=
  { emptyDB with schedule := [visitS1, { visitS1 with visit_id := "V00003" }] }

/-- Registry with two patients fields whose stored order (3 before 7) differs
from their rowid order, exercising renormalization. -/
def dbTwoFields : DB :=
  { emptyDB with
      extra_fields :=
        [{ id := 1, entity := "patients", field_name := "Wound Size",
           field_type := "number", field_order := (7 : ℚ), options := "" },
         { id := 2, entity := "patients", field_name := "Oxygen Level",
           field_type := "number", field_order := (3 : ℚ), options := "" }],
      next_field_id := 3 }

/-! ### Lemmas about the stable sort -/

theorem insertByKey_perm {α : Type} (key : α → ℚ) (a : α) :
    ∀ l : List α, List.Perm (insertByKey key a l) (a :: l)
  | [] => List.Perm.refl _
  | b :: bs => by
    unfold insertByKey
    by_cases h : key b < key a
    · simpa [h] using ((insertByKey_perm key a bs).cons b).trans (List.Perm.swap a b bs)
    · simp [h]

theorem sortByKey_perm {α : Type} (key : α → ℚ) :
    ∀ l : List α, List.Perm (sortByKey key l) l
  | [] => List.Perm.refl _
  | x :: xs =>
    (insertByKey_perm key x (sortByKey key xs)).trans ((sortByKey_perm key xs).cons x)

theorem insertByKey_pairwise {α : Type} (key : α → ℚ) (a : α) :
    ∀ l : List α, l.Pairwise (fun x y => key x ≤ key y) →
      (insertByKey key a l).Pairwise (fun x y => key x ≤ key y)
  | [], _ => by simp [insertByKey]
  | b :: bs, h => by
    rw [List.pairwise_cons] at h
    unfold insertByKey
    by_cases hb : key b < key a
    · simp only [if_pos hb]
      rw [List.pairwise_cons]
      refine ⟨fun x hx => ?_, insertByKey_pairwise key a bs h.2⟩
      rcases List.mem_cons.mp ((insertByKey_perm key a bs).mem_iff.mp hx) with rfl | hxbs
      · exact le_of_lt hb
      · exact h.1 x hxbs
    · simp only [if_neg hb]
      rw [List.pairwise_cons]
      refine ⟨fun x hx => ?_, List.pairwise_cons.mpr h⟩
      rcases List.mem_cons.mp hx with rfl | hxbs
      · exact le_of_not_lt hb
      · exact (le_of_not_lt hb).trans (h.1 x hxbs)

theorem sortByKey_pairwise {α : Type} (key : α → ℚ) :
    ∀ l : List α, (sortByKey key l).Pairwise (fun x y => key x ≤ key y)
  | [] => List.Pairwise.nil
  | x :: xs => insertByKey_pairwise key x _ (sortByKey_pairwise key xs)

/-! ### Maxima and minima of sorted rational lists -/

theorem maxQ_mem : ∀ {l : List ℚ} {m : ℚ}, maxQ l = some m → m ∈ l := by
  intro l
  induction l with
  | nil => intro m h; simp [maxQ] at h
  | cons x xs ih =>
    intro m h
    simp only [maxQ] at h
    cases hx : maxQ xs with
    | none => rw [hx] at h; simp [Option.elim] at h; simp [h.symm]
    | some m' =>
      rw [hx] at h
      simp only [Option.elim, Option.some_inj] at h
      rcases max_choice x m' with hc | hc
      · rw [hc] at h; simp [h.symm]
      · rw [hc] at h; exact List.mem_cons_of_mem x (ih (h ▸ hx))

theorem minQ_mem : ∀ {l : List ℚ} {m : ℚ}, minQ l = some m → m ∈ l := by
  intro l
  induction l with
  | nil => intro m h; simp [minQ] at h
  | cons x xs ih =>
    intro m h
    simp only [minQ] at h
    cases hx : minQ xs with
    | none => rw [hx] at h; simp [Option.elim] at h; simp [h.symm]
    | some m' =>
      rw [hx] at h
      simp only [Option.elim, Option.some_inj] at h
      rcases min_choice x m' with hc | hc
      · rw [hc] at h; simp [h.symm]
      · rw [hc] at h; exact List.mem_cons_of_mem x (ih (h ▸ hx))

theorem sorted_getLast_eq_maxQ :
    ∀ {l : List ℚ}, l.Pairwise (· ≤ ·) → l.getLast? = maxQ l := by
  intro l
  induction l with
  | nil => intro _; rfl
  | cons x xs ih =>
    intro h
    rw [List.pairwise_cons] at h
    cases xs with
    | nil => rfl
    | cons y t =>
      rw [List.getLast?_cons_cons, ih h.2]
      cases hm : maxQ (y :: t) with
      | none => simp [maxQ] at hm
      | some m =>
        have hxm : x ≤ m := h.1 m (maxQ_mem hm)
        have hstep : maxQ (x :: y :: t) = some (max x m) := by
          rw [show maxQ (x :: y :: t)
                = some ((maxQ (y :: t)).elim x (fun v => max x v)) from rfl, hm]
          rfl
        rw [hstep, max_eq_right hxm]

theorem sorted_head_eq_minQ :
    ∀ {l : List ℚ}, l.Pairwise (· ≤ ·) → l.head? = minQ l := by
  intro l
  cases l with
  | nil => intro _; rfl
  | cons x xs =>
    intro h
    rw [List.pairwise_cons] at h
    cases hm : minQ xs with
    | none => simp [minQ, hm]
    | some m =>
      have hxm : x ≤ m := h.1 m (minQ_mem hm)
      simp [minQ, hm, Option.elim, min_eq_left hxm]

/-- On a token list sorted by key, the neighbor-based order computation of the
source equals the max/min-based description of the specification. -/
theorem computeNewOrder_eq_spec (tokens : List (String × ℚ))
    (hs : tokens.Pairwise (fun x y => x.2 ≤ y.2))
    (anchor_field : Option String) (position : String) :
    computeNewOrder tokens anchor_field position
      = specNewOrder tokens anchor_field position := by
  have hkeys : (tokens.map (fun t => t.2)).Pairwise (· ≤ ·) := List.pairwise_map.mpr hs
  simp only [computeNewOrder, specNewOrder]
  cases hA : anchor_field.bind
      (fun a => (tokens.find? (fun t => t.1 = a)).map (fun t => t.2)) with
  | none =>
    have h1 : (tokens.map (fun t => t.2)).getLast? = maxQ (tokens.map (fun t => t.2)) :=
      sorted_getLast_eq_maxQ hkeys
    rw [List.getLast?_map] at h1
    cases hL : tokens.getLast? with
    | none => rw [hL] at h1; rw [← h1]; simp [STEP]
    | some tk => rw [hL] at h1; rw [← h1]; simp
  | some A =>
    by_cases hpos : position = "above"
    · simp only [if_pos hpos]
      have hcomm : (tokens.filter (fun t => t.2 < A)).map (fun t => t.2)
          = (tokens.map (fun t => t.2)).filter (fun k => k < A) := by
        rw [List.filter_map]
        rfl
      rw [hcomm, sorted_getLast_eq_maxQ (hkeys.filter _)]
    · simp only [if_neg hpos]
      have hcomm : (tokens.filter (fun t => A < t.2)).map (fun t => t.2)
          = (tokens.map (fun t => t.2)).filter (fun k => A < k) := by
        rw [List.filter_map]
        rfl
      rw [hcomm, sorted_head_eq_minQ (hkeys.filter _)]

/-- Claim C4: add_field computes the new order key over the merged token list
(fixed fields at keys (index+1)*1000, custom fields at their stored keys)
exactly as the specification describes: no anchor gives max existing key plus
STEP; an anchored above placement the midpoint of the anchor key and the
nearest strictly lower key (anchor minus STEP when none is lower); below the
midpoint with the nearest strictly higher key (anchor plus STEP when none is
higher). -/
theorem c4_add_field_order_key_matches_spec (entity : String) (db : DB)
    (anchor_field : Option String) (position : String) :
    computeNewOrder (buildTokens entity db) anchor_field position
      = specNewOrder (buildTokens entity db) anchor_field position :=
  computeNewOrder_eq_spec _ (sortByKey_pairwise _ _) _ _

/-- Claim C6: an add_field whose anchor token matches no fixed-field token and
no existing custom-field token of the entity behaves exactly as if no anchor
had been given (append at end) and raises no error: the resulting database
states are equal. -/
theorem c6_unknown_anchor_treated_as_no_anchor (entity field_name field_type : String)
    (a position options_text : String) (db : DB)
    (h : (buildTokens entity db).find? (fun t => t.1 = a) = none) :
    add_extra_field entity field_name field_type (some a) position options_text db
      = add_extra_field entity field_name field_type none position options_text db := by
  have horder : computeNewOrder (buildTokens entity db) (some a) position
      = computeNewOrder (buildTokens entity db) none position := by
    simp only [computeNewOrder, Option.some_bind, Option.none_bind, h, Option.map_none']
  simp only [add_extra_field, horder]

/-- Witness for C6: anchoring on the nonexistent token fixed:bogus in the
patients entity of the empty database appends at the end, exactly as an
anchorless add does. -/
theorem c6_witness :
    (buildTokens "patients" emptyDB).find? (fun t => t.1 = "fixed:bogus") = none
    ∧ add_extra_field "patients" "Drug history" "text" (some "fixed:bogus") "below" "" emptyDB
      = add_extra_field "patients" "Drug history" "text" none "below" "" emptyDB :=
  ⟨by decide,
   c6_unknown_anchor_treated_as_no_anchor "patients" "Drug history" "text" "fixed:bogus"
     "below" "" emptyDB (by decide)⟩

/-- Claim C2 (code bug, evaluated at the failing input): adding Oxygen Level
below the fixed field diagnosis of patients computes the midpoint key 13500,
but the renormalization that add_extra_field runs afterwards rewrites the
custom key to 1 while build_render_list keeps fixed fields at 1000..17000, so
the merged layout lists Oxygen Level first, before Patient ID, instead of
immediately after Primary diagnosis and before Equipment required as the
claim states. -/
theorem c2_eval_oxygen_level_misplaced :
    (build_render_list "patients"
        (add_extra_field "patients" "Oxygen Level" "number"
          (some "fixed:diagnosis") "below" "" emptyDB)).map (fun it => it.label)
      = "Oxygen Level" :: (FIXED_FIELDS "patients").map (fun p => p.2) := by
  decide

/-! ### Scheduler lemmas and claims -/

/-- set_extra_value touches only the extra_values table. -/
theorem set_extra_value_schedule (entity record_id : String) (fid : Nat) (value : String)
    (db : DB) : (set_extra_value entity record_id fid value db).schedule = db.schedule := by
  unfold set_extra_value
  split <;> rfl

/-- Storing a batch of custom values leaves the schedule table unchanged. -/
theorem foldl_set_extra_value_schedule (vid : String) :
    ∀ (cv : List (Nat × String)) (d : DB),
      (cv.foldl (fun d p => set_extra_value "schedule" vid p.1 p.2 d) d).schedule = d.schedule
  | [], _ => rfl
  | p :: ps, d => by
    rw [List.foldl_cons, foldl_set_extra_value_schedule vid ps _, set_extra_value_schedule]

/-- The success branch of the create-visit handler, described exactly:
result id is make_visit_id of the pre-state, and the new schedule is
INSERT OR REPLACE of the built row. -/
theorem create_visit_ok_shape (db : DB) (inp : VisitInput) (cv : List (Nat × String))
    (user : String) (hp : inp.patient_id ≠ "") (hs : inp.staff_id ≠ "") :
    (create_visit inp cv user db).toOption.map (fun p => p.2) = some (make_visit_id db)
    ∧ (create_visit inp cv user db).toOption.map (fun p => p.1.schedule)
      = some (insertOrReplaceVisit (mkVisitRow inp user db) db.schedule) := by
  have hcond : ¬(inp.patient_id = "" ∨ inp.staff_id = "") := by
    rintro (h | h)
    · exact hp h
    · exact hs h
  simp only [create_visit, if_neg hcond, Except.toOption, Option.map_some']
  exact ⟨trivial, by rw [foldl_set_extra_value_schedule]⟩

/-- Claim C1 (counterexample): with an existing persisted visit for staff S1 on
2024-01-10 from 09:00 to 10:00, creating a visit for the same staff and date
from 09:30 to 10:15 — whose half-open interval overlaps the existing one —
does not return a conflict error: the handler returns ok with id V00002 and
the schedule has grown to two rows, refuting the claim at this input. -/
theorem c1_counterexample :
    overlapsHalfOpen 540 600 570 615 = true
    ∧ visitS1 ∈ dbOneVisit.schedule
    ∧ visitS1.staff_id = inpOverlap.staff_id
    ∧ visitS1.vdate = inpOverlap.vdate
    ∧ (create_visit inpOverlap [] "doctor" dbOneVisit).toOption.map (fun p => p.2)
      = some "V00002"
    ∧ (create_visit inpOverlap [] "doctor" dbOneVisit).toOption.map
        (fun p => p.1.schedule.length) = some 2 := by
  decide

/-- Claim C1 (amended): the create-visit handler performs no overlap check at
all: whenever a patient and a staff member are selected, it succeeds and
inserts the proposed row, regardless of any existing same-staff same-date
overlapping visit. -/
theorem c1_amended_no_overlap_check (db : DB) (inp : VisitInput)
    (cv : List (Nat × String)) (user : String)
    (hp : inp.patient_id ≠ "") (hs : inp.staff_id ≠ "") :
    (create_visit inp cv user db).toOption.map (fun p => p.2) = some (make_visit_id db)
    ∧ (create_visit inp cv user db).toOption.map (fun p => p.1.schedule)
      = some (insertOrReplaceVisit (mkVisitRow inp user db) db.schedule) :=
  create_visit_ok_shape db inp cv user hp hs

/-- Witness for the amended C1 at the overlapping concrete scenario. -/
theorem c1_amended_witness :
    (create_visit inpOverlap [] "doctor" dbOneVisit).toOption.map (fun p => p.2)
      = some (make_visit_id dbOneVisit)
    ∧ (create_visit inpOverlap [] "doctor" dbOneVisit).toOption.map (fun p => p.1.schedule)
      = some (insertOrReplaceVisit (mkVisitRow inpOverlap "doctor" dbOneVisit)
          dbOneVisit.schedule) :=
  c1_amended_no_overlap_check dbOneVisit inpOverlap [] "doctor" (by decide) (by decide)

/-- Claim C3 (counterexample): a proposed visit from 10:00 to 09:00 — end
strictly before start — is not rejected with a validation error: the handler
returns ok with id V00001 and inserts the row, storing the wrapped duration
1380 minutes, refuting the claim at this input. -/
theorem c3_counterexample :
    inpBackwards.end_min ≤ inpBackwards.start_min
    ∧ (create_visit inpBackwards [] "doctor" emptyDB).toOption.map (fun p => p.2)
      = some "V00001"
    ∧ (create_visit inpBackwards [] "doctor" emptyDB).toOption.map
        (fun p => p.1.schedule.map (fun r => r.duration_minutes)) = some [1380] := by
  decide

/-- Claim C3 (amended): the create-visit handler performs no time-range
validation: with a patient and a staff member selected it succeeds even when
end is not after start, inserting the row with duration_minutes equal to
(end minus start) modulo 1440, the value the timedelta normalization of the
source produces. -/
theorem c3_amended_no_time_range_validation (db : DB) (inp : VisitInput)
    (cv : List (Nat × String)) (user : String)
    (hp : inp.patient_id ≠ "") (hs : inp.staff_id ≠ "") (_hle : inp.end_min ≤ inp.start_min) :
    (create_visit inp cv user db).toOption.map (fun p => p.2) = some (make_visit_id db)
    ∧ (create_visit inp cv user db).toOption.map (fun p => p.1.schedule)
      = some (insertOrReplaceVisit (mkVisitRow inp user db) db.schedule)
    ∧ (mkVisitRow inp user db).duration_minutes
      = ((inp.end_min : Int) - (inp.start_min : Int)) % 1440 := by
  refine ⟨(create_visit_ok_shape db inp cv user hp hs).1,
          (create_visit_ok_shape db inp cv user hp hs).2, ?_⟩
  show (((inp.end_min : Int) - (inp.start_min : Int)) * 60 % 86400) / 60
      = ((inp.end_min : Int) - (inp.start_min : Int)) % 1440
  omega

/-- Witness for the amended C3 at the backwards 10:00 to 09:00 input. -/
theorem c3_amended_witness :
    (create_visit inpBackwards [] "doctor" emptyDB).toOption.map (fun p => p.2)
      = some (make_visit_id emptyDB)
    ∧ (create_visit inpBackwards [] "doctor" emptyDB).toOption.map (fun p => p.1.schedule)
      = some (insertOrReplaceVisit (mkVisitRow inpBackwards "doctor" emptyDB) emptyDB.schedule)
    ∧ (mkVisitRow inpBackwards "doctor" emptyDB).duration_minutes
      = ((inpBackwards.end_min : Int) - (inpBackwards.start_min : Int)) % 1440 :=
  c3_amended_no_time_range_validation emptyDB inpBackwards [] "doctor"
    (by decide) (by decide) (by decide)

/-- Claim C7 (counterexample): in the state with schedule rows V00001 and
V00003 — reached by deleting the visit V00002, a visit other than the highest
numbered one — a creation is assigned id V00003 and the resulting state
generates V00003 again, so two successive single-threaded creations receive
equal (not strictly increasing) ids. -/
theorem c7_counterexample :
    make_visit_id dbGap = "V00003"
    ∧ (create_visit inpOverlap [] "doctor" dbGap).toOption.map (fun p => p.2)
      = some "V00003"
    ∧ (create_visit inpOverlap [] "doctor" dbGap).toOption.map
        (fun p => make_visit_id p.1) = some "V00003" := by
  decide

/-- Claim C7 (amended): the assigned id is V followed by the zero-padded
schedule row count plus one; when the generated id is not already present the
insert grows the count by one, so the next creation generates the id derived
from count plus two — successive creations from fresh ids strictly increase. -/
theorem c7_amended_id_from_count (db : DB) (inp : VisitInput)
    (cv : List (Nat × String)) (user : String)
    (hp : inp.patient_id ≠ "") (hs : inp.staff_id ≠ "")
    (hfresh : make_visit_id db ∉ db.schedule.map (fun r => r.visit_id)) :
    make_visit_id db = "V" ++ padVisitNum (db.schedule.length + 1)
    ∧ (create_visit inp cv user db).toOption.map (fun p => p.1.schedule.length)
      = some (db.schedule.length + 1)
    ∧ (create_visit inp cv user db).toOption.map (fun p => make_visit_id p.1)
      = some ("V" ++ padVisitNum (db.schedule.length + 2)) := by
  have hfilter : db.schedule.filter
      (fun r => r.visit_id ≠ (mkVisitRow inp user db).visit_id) = db.schedule := by
    refine List.filter_eq_self.mpr (fun r hr => ?_)
    have : r.visit_id ≠ make_visit_id db := by
      intro h
      exact hfresh (h ▸ List.mem_map_of_mem (fun r => r.visit_id) hr)
    simpa using this
  have hsched := (create_visit_ok_shape db inp cv user hp hs).2
  have hlen : (insertOrReplaceVisit (mkVisitRow inp user db) db.schedule).length
      = db.schedule.length + 1 := by
    unfold insertOrReplaceVisit
    rw [hfilter, List.length_append, List.length_cons, List.length_nil]
  refine ⟨rfl, ?_, ?_⟩
  · have h2 := congrArg (Option.map List.length) hsched
    rw [Option.map_map, Option.map_some', hlen] at h2
    exact h2
  · have h3 := congrArg
      (Option.map (fun s : List Visit => "V" ++ padVisitNum (s.length + 1))) hsched
    rw [Option.map_map, Option.map_some', hlen] at h3
    exact h3

/-- Witness for the amended C7: creating from the single-visit state generates
V00002, one more than the previous count. -/
theorem c7_amended_witness :
    make_visit_id dbOneVisit = "V" ++ padVisitNum (dbOneVisit.schedule.length + 1)
    ∧ (create_visit inpOverlap [] "doctor" dbOneVisit).toOption.map
        (fun p => p.1.schedule.length) = some (dbOneVisit.schedule.length + 1)
    ∧ (create_visit inpOverlap [] "doctor" dbOneVisit).toOption.map
        (fun p => make_visit_id p.1)
      = some ("V" ++ padVisitNum (dbOneVisit.schedule.length + 2)) :=
  c7_amended_id_from_count dbOneVisit inpOverlap [] "doctor"
    (by decide) (by decide) (by decide)

/-- Claim C8: the delete-visit handler succeeds exactly when the requester has
the admin role or is the original creator of the selected visit; any other
requester gets the NotOwner refusal and the visit row is still present (the
state is not touched: the refusing branch returns no new database). -/
theorem c8_delete_visit_permission (db : DB) (visit_id user role : String) (row : Visit)
    (hfind : db.schedule.find? (fun r => r.visit_id = visit_id) = some row) :
    ((∃ db2, delete_visit visit_id user role db = .ok db2)
        ↔ canEditVisit row user role = true)
    ∧ (canEditVisit row user role = false →
        delete_visit visit_id user role db = .error "NotOwner" ∧ row ∈ db.schedule) := by
  constructor
  · constructor
    · rintro ⟨db2, h2⟩
      by_cases hc : canEditVisit row user role
      · exact hc
      · simp [delete_visit, hfind, hc] at h2
    · intro hc
      exact ⟨performDeleteVisit visit_id db, by simp [delete_visit, hfind, hc]⟩
  · intro hc
    exact ⟨by simp [delete_visit, hfind, hc], List.mem_of_find?_eq_some hfind⟩

/-- Witness for C8: the account alice with role nurse, neither admin nor the
creator (doctor) of visit V00001, is refused with NotOwner and the visit is
still in the schedule. -/
theorem c8_witness :
    delete_visit "V00001" "alice" "nurse" dbOneVisit = .error "NotOwner"
    ∧ visitS1 ∈ dbOneVisit.schedule :=
  (c8_delete_visit_permission dbOneVisit "V00001" "alice" "nurse" visitS1 (by decide)).2
    (by decide)

/-- Claim C9: remove_field deletes the DynamicField row and every
DynamicValue row referencing it, is idempotent, and lookups for the removed
field come back empty; deleting a visit likewise removes every DynamicValue
keyed to that visit id, and its row, so subsequent lookups are empty. -/
theorem c9_remove_field_and_visit_cascade (db : DB) (field_id : Nat)
    (entity record_id visit_id : String) (fid2 : Nat) :
    ((remove_extra_field field_id db).extra_fields.all (fun f => f.id ≠ field_id))
    ∧ ((remove_extra_field field_id db).extra_values.all (fun v => v.field_id ≠ field_id))
    ∧ remove_extra_field field_id (remove_extra_field field_id db)
      = remove_extra_field field_id db
    ∧ get_extra_value entity record_id field_id (remove_extra_field field_id db) = none
    ∧ ((get_extra_fields entity (remove_extra_field field_id db)).all
        (fun f => f.id ≠ field_id))
    ∧ get_extra_value "schedule" visit_id fid2 (performDeleteVisit visit_id db) = none
    ∧ ((performDeleteVisit visit_id db).schedule.all (fun r => r.visit_id ≠ visit_id)) := by
  refine ⟨?_, ?_, ?_, ?_, ?_, ?_, ?_⟩
  · simp only [remove_extra_field, List.all_eq_true]
    intro f hf
    simpa using (List.mem_filter.mp hf).2
  · simp only [remove_extra_field, List.all_eq_true]
    intro v hv
    simpa using (List.mem_filter.mp hv).2
  · simp [remove_extra_field, List.filter_filter]
  · simp only [get_extra_value, remove_extra_field]
    rw [List.find?_eq_none.mpr, Option.map_none']
    intro v hv
    have hne := (List.mem_filter.mp hv).2
    simp only [decide_not, Bool.not_eq_eq_eq_not, Bool.not_true, decide_eq_false_iff_not] at hne
    simp [hne]
  · simp only [get_extra_fields, List.all_eq_true]
    intro f hf
    have hf2 := (sortByKey_perm (fun f : ExtraField => f.field_order) _).mem_iff.mp hf
    have := (List.mem_filter.mp hf2).1
    simp only [remove_extra_field] at this
    simpa using (List.mem_filter.mp this).2
  · simp only [get_extra_value, performDeleteVisit]
    rw [List.find?_eq_none.mpr, Option.map_none']
    intro v hv
    have hne : ¬(v.entity = "schedule" ∧ v.record_id = visit_id) := by
      have h0 : ¬v.entity = "schedule" ∨ ¬v.record_id = visit_id := by
        simpa using (List.mem_filter.mp hv).2
      tauto
    intro hcontra
    have hc2 := of_decide_eq_true hcontra
    exact hne ⟨hc2.1, hc2.2.1⟩
  · simp only [performDeleteVisit, List.all_eq_true]
    intro r hr
    simpa using (List.mem_filter.mp hr).2

/-- Filtering out one element of a Nodup list drops exactly that element. -/
theorem length_filter_ne_of_nodup {α : Type} [DecidableEq α] :
    ∀ (l : List α) (a : α), l.Nodup → a ∈ l →
      (l.filter (fun x => x ≠ a)).length = l.length - 1 := by
  intro l
  induction l with
  | nil => intro a _ ha; simp at ha
  | cons x xs ih =>
    intro a hnd ha
    rw [List.nodup_cons] at hnd
    by_cases hx : x = a
    · subst hx
      have hxs : xs.filter (fun y => y ≠ x) = xs := by
        refine List.filter_eq_self.mpr (fun y hy => ?_)
        have hyx : y ≠ x := fun h => hnd.1 (h ▸ hy)
        simpa using hyx
      have hcons : (x :: xs).filter (fun y => y ≠ x) = xs.filter (fun y => y ≠ x) := by
        simp [List.filter_cons]
      rw [hcons, hxs, List.length_cons]
      omega
    · have haxs : a ∈ xs := by
        rcases List.mem_cons.mp ha with h | h
        · exact absurd h.symm hx
        · exact h
      have hlen := ih a hnd.2 haxs
      have hpos : 1 ≤ xs.length := List.length_pos.mpr (List.ne_nil_of_mem haxs)
      have hcons : (x :: xs).filter (fun y => y ≠ a) = x :: xs.filter (fun y => y ≠ a) := by
        simp [List.filter_cons, hx]
      rw [hcons, List.length_cons, hlen, List.length_cons]
      omega

/-- Claim C10: visit_id is the schedule primary key kept unique by
INSERT OR REPLACE — creation preserves key uniqueness — and when the
generated id already names an existing row (as after deleting a visit other
than the highest-numbered one) the creation keeps the row count unchanged and
silently replaces that row: the only row left with that id is the new one. -/
theorem c10_visit_id_primary_key_replace (db : DB) (inp : VisitInput)
    (cv : List (Nat × String)) (user : String)
    (hp : inp.patient_id ≠ "") (hs : inp.staff_id ≠ "")
    (hnd : (db.schedule.map (fun r => r.visit_id)).Nodup) :
    ((insertOrReplaceVisit (mkVisitRow inp user db) db.schedule).map
        (fun r => r.visit_id)).Nodup
    ∧ (make_visit_id db ∈ db.schedule.map (fun r => r.visit_id) →
        (insertOrReplaceVisit (mkVisitRow inp user db) db.schedule).length
          = db.schedule.length
        ∧ (insertOrReplaceVisit (mkVisitRow inp user db) db.schedule).filter
            (fun r => r.visit_id = make_visit_id db) = [mkVisitRow inp user db])
    ∧ (create_visit inp cv user db).toOption.map (fun p => p.1.schedule)
      = some (insertOrReplaceVisit (mkVisitRow inp user db) db.schedule) := by
  have hkeys : (db.schedule.filter
        (fun r => r.visit_id ≠ (mkVisitRow inp user db).visit_id)).map (fun r => r.visit_id)
      = (db.schedule.map (fun r => r.visit_id)).filter (fun k => k ≠ make_visit_id db) := by
    rw [List.filter_map]
    rfl
  refine ⟨?_, fun hmem => ⟨?_, ?_⟩, (create_visit_ok_shape db inp cv user hp hs).2⟩
  · unfold insertOrReplaceVisit
    rw [List.map_append, hkeys]
    refine List.Nodup.append (hnd.filter _) (List.nodup_singleton _) ?_
    intro a ha hb
    have h1 : ¬a = make_visit_id db := by simpa using (List.mem_filter.mp ha).2
    have h2 : a = make_visit_id db := by
      simpa using hb
    exact h1 h2
  · unfold insertOrReplaceVisit
    rw [List.length_append, List.length_cons, List.length_nil]
    have hlf : (db.schedule.filter
        (fun r => r.visit_id ≠ (mkVisitRow inp user db).visit_id)).length
        = db.schedule.length - 1 := by
      have hlen2 := congrArg List.length hkeys
      rw [List.length_map] at hlen2
      rw [hlen2, length_filter_ne_of_nodup _ _ hnd hmem, List.length_map]
    have hpos : 1 ≤ db.schedule.length := by
      rcases List.mem_map.mp hmem with ⟨r, hr, _⟩
      have := List.length_pos.mpr (List.ne_nil_of_mem hr)
      omega
    omega
  · unfold insertOrReplaceVisit
    rw [List.filter_append, List.filter_filter]
    have h1 : db.schedule.filter (fun a =>
        decide (a.visit_id = make_visit_id db)
          && decide (a.visit_id ≠ (mkVisitRow inp user db).visit_id)) = [] := by
      refine List.filter_eq_nil_iff.mpr (fun a _ => ?_)
      by_cases hid : a.visit_id = make_visit_id db
      · have hrow : a.visit_id = (mkVisitRow inp user db).visit_id := hid
        simp [hrow]
      · simp [hid]
    have h2 : List.filter (fun r => r.visit_id = make_visit_id db)
        [mkVisitRow inp user db] = [mkVisitRow inp user db] := by
      simp [mkVisitRow]
    rw [h1, h2, List.nil_append]

/-- Witness for C10: in the state with rows V00001 and V00003 the freshly
generated id V00003 collides; creation keeps the row count at two, keeps keys
unique, and the only row keyed V00003 afterwards is the new one. -/
theorem c10_witness :
    ((insertOrReplaceVisit (mkVisitRow inpOverlap "doctor" dbGap) dbGap.schedule).map
        (fun r => r.visit_id)).Nodup
    ∧ (insertOrReplaceVisit (mkVisitRow inpOverlap "doctor" dbGap) dbGap.schedule).length
      = dbGap.schedule.length
    ∧ (insertOrReplaceVisit (mkVisitRow inpOverlap "doctor" dbGap) dbGap.schedule).filter
        (fun r => r.visit_id = make_visit_id dbGap)
      = [mkVisitRow inpOverlap "doctor" dbGap] :=
  have h := c10_visit_id_primary_key_replace dbGap inpOverlap [] "doctor"
    (by decide) (by decide) (by decide)
  ⟨h.1, (h.2.1 (by decide)).1, (h.2.1 (by decide)).2⟩

/-! ### Renormalization preserves the listed sequence (claim C5) -/

/-- Two lists that are permutations of one another, both sorted by a key that
takes no value twice, are equal. -/
theorem perm_pairwise_key_nodup_eq {α : Type} (key : α → ℚ) :
    ∀ (l1 l2 : List α), List.Perm l1 l2 →
      l1.Pairwise (fun a b => key a ≤ key b) →
      l2.Pairwise (fun a b => key a ≤ key b) →
      (l2.map key).Nodup → l1 = l2
  | [], _, h, _, _, _ => (h.symm.eq_nil).symm
  | a :: t1, l2, h, h1, h2, hn => by
    cases l2 with
    | nil => exact absurd h.eq_nil (by simp)
    | cons b t2 =>
      by_cases hab : a = b
      · subst hab
        have ht : List.Perm t1 t2 := h.cons_inv
        have hrec := perm_pairwise_key_nodup_eq key t1 t2 ht
          (List.pairwise_cons.mp h1).2 (List.pairwise_cons.mp h2).2
          (List.nodup_cons.mp (by simpa using hn)).2
        rw [hrec]
      · exfalso
        have hat2 : a ∈ t2 := by
          rcases List.mem_cons.mp (h.mem_iff.mp (List.mem_cons_self a t1)) with h3 | h3
          · exact absurd h3 hab
          · exact h3
        have hbt1 : b ∈ t1 := by
          rcases List.mem_cons.mp (h.symm.mem_iff.mp (List.mem_cons_self b t2)) with h3 | h3
          · exact absurd h3.symm hab
          · exact h3
        have hle1 : key a ≤ key b := (List.pairwise_cons.mp h1).1 b hbt1
        have hle2 : key b ≤ key a := (List.pairwise_cons.mp h2).1 a hat2
        have heq : key b = key a := le_antisymm hle2 hle1
        have hmem : key b ∈ t2.map key := heq ▸ List.mem_map_of_mem key hat2
        exact (List.nodup_cons.mp (by simpa using hn)).1 hmem

/-- Filtering an entity after the conditional per-entity update equals mapping
the unconditional update over the filtered rows, whenever the update does not
change the entity. -/
theorem filter_map_entity_update (entity : String) (u : ExtraField → ExtraField)
    (hu : ∀ f, (u f).entity = f.entity) :
    ∀ xs : List ExtraField,
      (xs.map (fun f => if f.entity = entity then u f else f)).filter
          (fun f => f.entity = entity)
        = (xs.filter (fun f => f.entity = entity)).map u
  | [] => rfl
  | f :: fs => by
    rw [List.map_cons]
    by_cases hf : f.entity = entity
    · rw [if_pos hf, List.filter_cons_of_pos (by simp [hu, hf]),
        List.filter_cons_of_pos (by simp [hf]), List.map_cons,
        filter_map_entity_update entity u hu fs]
    · rw [if_neg hf, List.filter_cons_of_neg (by simp [hf]),
        List.filter_cons_of_neg (by simp [hf])]
      exact filter_map_entity_update entity u hu fs

/-- Applying the renormalization update to the sorted rows yields the order
keys 1..n, provided the ids are distinct. -/
theorem map_update_orders (s : List ExtraField)
    (hnd : (s.map (fun f => f.id)).Nodup) :
    (s.map (fun f =>
        { f with field_order :=
            (((s.map (fun g : ExtraField => g.id)).indexOf f.id + 1 : ℕ) : ℚ) })).map
        (fun f => f.field_order)
      = (List.range s.length).map (fun i => ((i + 1 : ℕ) : ℚ)) := by
  apply List.ext_getElem
  · simp
  · intro i h1 h2
    have hi : i < s.length := by simpa using h1
    have hi2 : i < (s.map (fun g : ExtraField => g.id)).length := by simpa using hi
    simp only [List.getElem_map, List.getElem_range]
    have hidx : (s.map (fun g : ExtraField => g.id)).indexOf s[i].id = i := by
      have h4 := List.indexOf_getElem hnd i hi2
      simpa using h4
    rw [hidx]

/-- Claim C5: renormalize rewrites the dynamic field order keys of the entity
to 1, 2, 3, ... following the current sorted order, and the id sequence that
get_extra_fields returns immediately afterwards equals, element for element,
the sequence returned immediately before (ids are unique by AUTOINCREMENT,
stated here as the Nodup hypothesis). -/
theorem c5_renormalize_preserves_sequence (entity : String) (db : DB)
    (hnd : ((db.extra_fields.filter (fun f => f.entity = entity)).map
        (fun f => f.id)).Nodup) :
    (get_extra_fields entity (renormalize_field_orders entity db)).map (fun f => f.id)
      = (get_extra_fields entity db).map (fun f => f.id)
    ∧ (get_extra_fields entity (renormalize_field_orders entity db)).map
        (fun f => f.field_order)
      = (List.range (get_extra_fields entity db).length).map
          (fun i => ((i + 1 : ℕ) : ℚ)) := by
  have hperm_sl : List.Perm (get_extra_fields entity db)
      (db.extra_fields.filter (fun f => f.entity = entity)) := by
    unfold get_extra_fields
    exact sortByKey_perm (fun f : ExtraField => f.field_order) _
  have hnds : ((get_extra_fields entity db).map (fun f => f.id)).Nodup :=
    (hperm_sl.map (fun f => f.id)).nodup_iff.mpr hnd
  have hfilter : (renormalize_field_orders entity db).extra_fields.filter
      (fun f => f.entity = entity)
      = (db.extra_fields.filter (fun f => f.entity = entity)).map
          (fun f => { f with field_order :=
            ((((get_extra_fields entity db).map (fun g : ExtraField => g.id)).indexOf
                f.id + 1 : ℕ) : ℚ) }) := by
    simp only [renormalize_field_orders]
    exact filter_map_entity_update entity
      (fun f => { f with field_order :=
        ((((get_extra_fields entity db).map (fun g : ExtraField => g.id)).indexOf
            f.id + 1 : ℕ) : ℚ) })
      (fun f => rfl) db.extra_fields
  have horders := map_update_orders (get_extra_fields entity db) hnds
  have hrange_pw : ((List.range (get_extra_fields entity db).length).map
      (fun i => ((i + 1 : ℕ) : ℚ))).Pairwise (· ≤ ·) := by
    rw [List.pairwise_map]
    exact (List.pairwise_lt_range _).imp
      (fun h => by exact_mod_cast Nat.succ_le_succ (le_of_lt h))
  have hrange_nd : ((List.range (get_extra_fields entity db).length).map
      (fun i => ((i + 1 : ℕ) : ℚ))).Nodup :=
    (List.nodup_range _).map
      (fun i j h => Nat.succ_injective (by exact_mod_cast h))
  have hpw2 : (((get_extra_fields entity db).map
      (fun f => { f with field_order :=
        ((((get_extra_fields entity db).map (fun g : ExtraField => g.id)).indexOf
            f.id + 1 : ℕ) : ℚ) })).map (fun f => f.field_order)).Pairwise (· ≤ ·) := by
    rw [horders]; exact hrange_pw
  have hsorted2 := List.pairwise_map.mp hpw2
  have hnodup2 : (((get_extra_fields entity db).map
      (fun f => { f with field_order :=
        ((((get_extra_fields entity db).map (fun g : ExtraField => g.id)).indexOf
            f.id + 1 : ℕ) : ℚ) })).map (fun f => f.field_order)).Nodup := by
    rw [horders]; exact hrange_nd
  have hperm2 : List.Perm
      (sortByKey (fun f => f.field_order)
        ((db.extra_fields.filter (fun f => f.entity = entity)).map
          (fun f => { f with field_order :=
            ((((get_extra_fields entity db).map (fun g : ExtraField => g.id)).indexOf
                f.id + 1 : ℕ) : ℚ) })))
      ((get_extra_fields entity db).map
        (fun f => { f with field_order :=
          ((((get_extra_fields entity db).map (fun g : ExtraField => g.id)).indexOf
              f.id + 1 : ℕ) : ℚ) })) :=
    (sortByKey_perm _ _).trans (hperm_sl.symm.map _)
  have hmain := perm_pairwise_key_nodup_eq (fun f => f.field_order) _ _ hperm2
    (sortByKey_pairwise _ _) hsorted2 hnodup2
  constructor
  · show (sortByKey (fun f => f.field_order)
        ((renormalize_field_orders entity db).extra_fields.filter
          (fun f => f.entity = entity))).map (fun f => f.id)
      = (get_extra_fields entity db).map (fun f => f.id)
    rw [hfilter, hmain, List.map_map]
    exact List.map_congr_left (fun f _ => rfl)
  · show (sortByKey (fun f => f.field_order)
        ((renormalize_field_orders entity db).extra_fields.filter
          (fun f => f.entity = entity))).map (fun f => f.field_order)
      = (List.range (get_extra_fields entity db).length).map (fun i => ((i + 1 : ℕ) : ℚ))
    rw [hfilter, hmain, horders]

/-- Witness for C5: with two patients fields whose stored keys 7 and 3 invert
their rowid order, renormalization reassigns keys 1 and 2 and the listed id
sequence (2 then 1) is unchanged. -/
theorem c5_witness :
    (get_extra_fields "patients" (renormalize_field_orders "patients" dbTwoFields)).map
        (fun f => f.id)
      = (get_extra_fields "patients" dbTwoFields).map (fun f => f.id)
    ∧ (get_extra_fields "patients" (renormalize_field_orders "patients" dbTwoFields)).map
        (fun f => f.field_order)
      = (List.range (get_extra_fields "patients" dbTwoFields).length).map
          (fun i => ((i + 1 : ℕ) : ℚ)) :=
  c5_renormalize_preserves_sequence "patients" dbTwoFields (by decide)

end Homecare
